import Mathlib

/-
Verification development for the message-mirroring pipeline of bot-espelhar
(src/app.py).  The Python source is shallowly embedded: Python strings become
Lean `String` / `List Char` (Python str is a sequence of Unicode code points,
as is `String.data`), Python ints become `Int`, raised exceptions become an
explicit result type, and the I/O of the delivery loop becomes a trace of
effects driven by an environment that says how each external send call behaves.
-/

namespace MirrorBotSpec

/-! ## Python string primitives used by app.py

Only the character classes that the program touches are modelled.  Comments on
each definition state the CPython behaviour it embeds and the deliberate
restriction of the Unicode tables to the ranges exercised here. -/

/-- Python str.isdigit on ASCII decimal digits (Unicode category Nd, ASCII
range).  CPython accepts further Nd ranges (for example Arabic-Indic digits);
they behave exactly like this class and are omitted from the model. -/
def pyIsDecimalDigit (c : Char) : Bool :=
  48 ≤ c.toNat && c.toNat ≤ 57

/-- Python str.isdigit on one character: true for decimal digits and also for
characters of Numeric_Type Digit that are not decimal digits, such as the
superscript digits U+00B9, U+00B2, U+00B3.  CPython documents exactly this
split, and int() rejects the non-decimal ones; the model keeps the three
superscripts as representatives of that second class. -/
def pyIsDigitChar (c : Char) : Bool :=
  pyIsDecimalDigit c || c == '¹' || c == '²' || c == '³'

/-- Python s.isdigit(): nonempty and every character a digit character. -/
def pyStrIsDigit (s : String) : Bool :=
  !s.data.isEmpty && s.data.all pyIsDigitChar

/-- The numeric-looking test the source repeats at app.py lines 159, 175, 282:
value.isdigit() or (value.startswith("-") and value[1:].isdigit()). -/
def pyNumericLike (s : String) : Bool :=
  pyStrIsDigit s ||
    (match s.data with
     | [] => false
     | c :: rest => c == '-' && !rest.isEmpty && rest.all pyIsDigitChar)

/-- Decimal value of a digit list, most significant first. -/
def digitsToNat (l : List Char) : Nat :=
  l.foldl (fun a c => 10 * a + (c.toNat - 48)) 0

/-- Python int(s) for base 10, restricted to the shapes that can reach it in
app.py: an optional leading minus sign followed by decimal digits.  Any other
string (including the non-decimal digit characters that pass isdigit, such as
U+00B2) makes CPython raise ValueError, modelled as `none`. -/
def pyIntOfString (s : String) : Option Int :=
  match s.data with
  | [] => none
  | c :: rest =>
    if c == '-' then
      if !rest.isEmpty && rest.all pyIsDecimalDigit then
        some (-(digitsToNat rest : Int))
      else none
    else
      if (c :: rest).all pyIsDecimalDigit then
        some ((digitsToNat (c :: rest) : Int))
      else none

/-- Python str.lower, restricted to the ASCII case mapping of Char.toLower;
the full Unicode mapping never changes the behaviour claimed here. -/
def pyLower (s : String) : String :=
  ⟨s.data.map Char.toLower⟩

/-- Python str.isspace class for one character, restricted to the common
whitespace characters; further Unicode space characters behave alike. -/
def pyIsSpace (c : Char) : Bool :=
  c == ' ' || c == '\t' || c == '\n' || c == '\r' || c.toNat == 11 || c.toNat == 12

/-- needle is an initial segment of hay, character by character. -/
def leadMatch : List Char → List Char → Bool
  | [], _ => true
  | _ :: _, [] => false
  | a :: as, b :: bs => a == b && leadMatch as bs

/-- Python substring containment, needle in hay. -/
def pySubstr (needle : List Char) : List Char → Bool
  | [] => needle.isEmpty
  | c :: rest => leadMatch needle (c :: rest) || pySubstr needle rest

/-! ## html.escape (Python stdlib), as used at app.py lines 205, 225, 263

CPython html.escape(s, quote=True) replaces the ampersand first and then the
other four metacharacters, so the replacement text of one character never gets
re-escaped; that sequential pass therefore equals this per-character map. -/

/-- The escape text of one character under html.escape with quote=True. -/
def escChar (c : Char) : List Char :=
  if c = '&' then "&amp;".data
  else if c = '<' then "&lt;".data
  else if c = '>' then "&gt;".data
  else if c = '"' then "&quot;".data
  else if c = Char.ofNat 39 then "&#x27;".data
  else [c]

/-- html.escape on a character list. -/
def hEscape (l : List Char) : List Char :=
  l.flatMap escChar

/-- html.escape on a string. -/
def pyHtmlEscape (s : String) : String :=
  ⟨hEscape s.data⟩

/-! ## MessageEntity and entities_to_html (app.py lines 198 to 265)

A Telethon entity is its class name, an offset and a length (CPython ints,
non-negative by the wire format, so Nat), and the kind-specific payload:
the url attribute of MessageEntityTextUrl and the user id reached by the
getattr chain of line 232 (none when that chain yields None, some 0 when it
yields the falsy id 0). -/

structure MessageEntity where
  cls : String
  offset : Nat
  length : Nat
  url : String
  user_id : Option Int
deriving DecidableEq, Repr

/-- The (start_tag, end_tag) pair the dispatch at lines 215 to 244 assigns, or
none for an unsupported class (the continue at line 244).  A mention whose id
chain is falsy keeps the initial empty tags and still appends them (the code
falls through to line 246 in that case). -/
def entityTags (e : MessageEntity) : Option (String × String) :=
  if e.cls == "MessageEntityBold" then some ("<b>", "</b>")
  else if e.cls == "MessageEntityItalic" then some ("<i>", "</i>")
  else if e.cls == "MessageEntityCode" then some ("<code>", "</code>")
  else if e.cls == "MessageEntityPre" then some ("<pre>", "</pre>")
  else if e.cls == "MessageEntityTextUrl" then
    some ("<a href=\"" ++ pyHtmlEscape e.url ++ "\">", "</a>")
  else if e.cls == "MessageEntityUrl" then
    some ("<a href=\"", "</a>")
  else if e.cls == "MessageEntityMentionName" || e.cls == "MessageEntityTextMention" then
    match e.user_id with
    | some uid => if uid ≠ 0 then some ("<a href=\"tg://user?id=" ++ toString uid ++ "\">", "</a>") else some ("", "")
    | none => some ("", "")
  else if e.cls == "MessageEntityUnderline" then some ("<u>", "</u>")
  else if e.cls == "MessageEntityStrike" then some ("<s>", "</s>")
  else if e.cls == "MessageEntitySpoiler" then some ("<tg-spoiler>", "</tg-spoiler>")
  else none

/-- The two insert events of one entity (lines 246 and 247), or none. -/
def entInserts (e : MessageEntity) : List (Nat × String) :=
  match entityTags e with
  | none => []
  | some (s, t) => [(e.offset, s), (e.offset + e.length, t)]

/-- The inserts list built by the loop at lines 207 to 247, in entity order. -/
def insertsOf (es : List MessageEntity) : List (Nat × String) :=
  es.flatMap entInserts

/-- inserts_by_pos[p] (lines 252 to 254): the tags of position p, in the order
they were appended to inserts (setdefault plus append preserves it). -/
def tagsAt (ins : List (Nat × String)) (p : Nat) : List String :=
  (ins.filter (fun q => q.1 == p)).map Prod.snd

/-- The characters those tags contribute at position p. -/
def tagsFlat (ins : List (Nat × String)) (p : Nat) : List Char :=
  (tagsAt ins p).flatMap String.data

/-- The walk at lines 256 to 263: for i in range(len(text)+1) emit the tags of
position i, then the escaped character when i < len(text).  The list argument
is the remaining text and i the current position. -/
def walkHtml (ins : List (Nat × String)) : List Char → Nat → List Char
  | [], i => tagsFlat ins i
  | c :: rest, i => tagsFlat ins i ++ escChar c ++ walkHtml ins rest (i + 1)

/-- entities_to_html on a character list: the early return at line 205 when the
entity list is empty, else the insert walk. -/
def entitiesToHtmlList (text : List Char) (es : List MessageEntity) : List Char :=
  if es.isEmpty then hEscape text else walkHtml (insertsOf es) text 0

/-- entities_to_html (app.py line 198). -/
def entities_to_html (text : String) (es : List MessageEntity) : String :=
  ⟨entitiesToHtmlList text.data es⟩

/-! ## normalize_id (app.py lines 277 to 286)

A RawIdentifier is an int or a string (spec section 3); a raised Python
exception is the err constructor of PyResult. -/

inductive PyValue where
  | int (n : Int)
  | str (s : String)
deriving DecidableEq, Repr

inductive PyResult (α : Type) where
  | ok (a : α)
  | err (msg : String)
deriving DecidableEq, Repr

/-- normalize_id: ints pass through; numeric-looking strings go through
int(value), which raises ValueError on digit characters outside the decimal
class; any other string passes through. -/
def normalize_id : PyValue → PyResult PyValue
  | .int n => .ok (.int n)
  | .str s =>
    if pyNumericLike s then
      match pyIntOfString s with
      | some k => .ok (.int k)
      | none => .err "ValueError"
    else .ok (.str s)

/-- Python int(x) on a RawIdentifier (line 186 and line 191). -/
def pyToInt : PyValue → PyResult Int
  | .int n => .ok n
  | .str s =>
    match pyIntOfString s with
    | some k => .ok k
    | none => .err "ValueError"

/-! ## _resolve_mappings (app.py lines 145 to 195)

client.get_entity with its timeout is the external directory lookup; a lookup
environment maps a symbolic name to some numeric id, or none when the lookup
times out or fails (both are caught and skipped identically). -/

structure ResolveEnv where
  lookup : String → Option Int

/-- Lines 150 to 169: normalize the source inside try/except (a raise falls
back to the raw value), then resolve a symbolic source via lookup; none means
the whole source entry is skipped (the continue at lines 166 and 169). -/
def resolve_src_id (env : ResolveEnv) (raw_src : PyValue) : Option PyValue :=
  let src_norm := match normalize_id raw_src with
    | .ok v => v
    | .err _ => raw_src
  match src_norm with
  | .str s =>
    if pyNumericLike s then some (.str s)
    else (env.lookup s).map PyValue.int
  | .int n => some (.int n)

/-- One destination of the loop at lines 172 to 188: normalize_id unguarded
(line 173, a raise aborts the whole resolver), symbolic strings go through the
lookup with failures skipped, anything else through int() with failures
skipped; some id means appended, none means skipped. -/
def resolveDest (env : ResolveEnv) (d : PyValue) : PyResult (Option Int) :=
  match normalize_id d with
  | .err m => .err m
  | .ok d_norm =>
    match d_norm with
    | .str s =>
      if pyNumericLike s then .ok (pyIntOfString s)
      else .ok (env.lookup s)
    | .int n => .ok (some n)

/-- The destination id of one raw destination when the resolver completes:
the appended id or none when that destination was skipped. -/
def resolveDestOk (env : ResolveEnv) (d : PyValue) : Option Int :=
  match resolveDest env d with
  | .ok r => r
  | .err _ => none

/-- The dest_ids accumulation of lines 171 to 188 over one destination list. -/
def resolve_dests (env : ResolveEnv) : List PyValue → PyResult (List Int)
  | [] => .ok []
  | d :: rest =>
    match resolveDest env d with
    | .err m => .err m
    | .ok r =>
      match resolve_dests env rest with
      | .err m => .err m
      | .ok tail => .ok (match r with | some k => k :: tail | none => tail)

/-- Python dict assignment resolved[k] = v: replace in place when the key is
present, else append; insertion order is preserved either way. -/
def dinsert (m : List (Int × List Int)) (k : Int) (v : List Int) : List (Int × List Int) :=
  if m.any (fun p => p.1 == k) then
    m.map (fun p => if p.1 == k then (k, v) else p)
  else m ++ [(k, v)]

/-- The body of _resolve_mappings over the remaining raw entries, carrying the
resolved dict; lines 190 to 193: an entry is stored only when dest_ids is
nonempty, through int(src_id), whose raise is uncaught. -/
def resolveMappingsAux (env : ResolveEnv) :
    List (PyValue × List PyValue) → List (Int × List Int) → PyResult (List (Int × List Int))
  | [], acc => .ok acc
  | (raw_src, raw_dests) :: rest, acc =>
    match resolve_src_id env raw_src with
    | none => resolveMappingsAux env rest acc
    | some src_id =>
      match resolve_dests env raw_dests with
      | .err m => .err m
      | .ok dest_ids =>
        if dest_ids.isEmpty then resolveMappingsAux env rest acc
        else
          match pyToInt src_id with
          | .err m => .err m
          | .ok k => resolveMappingsAux env rest (dinsert acc k dest_ids)

/-- _resolve_mappings: the routing table from the raw mappings, in declaration
order of the sources (Python dicts iterate in insertion order). -/
def resolve_mappings (env : ResolveEnv) (raw : List (PyValue × List PyValue)) :
    PyResult (List (Int × List Int)) :=
  resolveMappingsAux env raw []

/-! ## The inbound message and the content filter (app.py lines 81 to 97) -/

/-- An inbound message as _on_message reads it: the service flag (action is
not None), the optional text body, the media flag, and the entity list (a None
entity list and an empty one are indistinguishable to the code, which only
tests truthiness). -/
structure Msg where
  action : Bool
  message : Option String
  media : Bool
  entities : List MessageEntity
deriving DecidableEq, Repr

/-- text = msg.message or "" (line 90). -/
def msgText (m : Msg) : String :=
  m.message.getD ""

/-- not msg.message or msg.message.strip() == "" (line 87): a missing or empty
or whitespace-only body. -/
def bodyBlank (m : Msg) : Bool :=
  match m.message with
  | none => true
  | some s => s.data.all pyIsSpace

/-- The stored keyword list of __init__ line 33: every configured keyword
lowercased. -/
def mkKeywords (raw : List String) : List String :=
  raw.map pyLower

/-- The accept/reject decision of lines 85 to 97, over the stored (lowercased)
keyword list: reject service events, reject blank bodies without media, and
with a nonempty keyword list reject unless some keyword is a substring of the
lowercased body. -/
def content_filter_accepts (keywords : List String) (m : Msg) : Bool :=
  if m.action then false
  else if bodyBlank m && !m.media then false
  else if !keywords.isEmpty &&
      !(keywords.any (fun k => pySubstr k.data (pyLower (msgText m)).data)) then false
  else true

/-! ## The delivery loop (app.py lines 99 to 143)

Each external send call either returns or raises; the environment fixes, per
destination, the behaviour of client.send_file, of the markup send_message and
of the plain send_message.  The loop body is deterministic given that
environment, and its observable behaviour is the trace of effects below. -/

inductive SendResult where
  | ok
  | floodWait (seconds : Nat)
  | permissionDenied
  | otherError
deriving DecidableEq, Repr

structure SendEnv where
  fileRes : Int → SendResult
  htmlRes : Int → SendResult
  plainRes : Int → SendResult

/-- The error, if any, a send call raises. -/
inductive SendErr where
  | floodWait (seconds : Nat)
  | permissionDenied
  | other
deriving DecidableEq, Repr

def resErr : SendResult → Option SendErr
  | .ok => none
  | .floodWait w => some (.floodWait w)
  | .permissionDenied => some .permissionDenied
  | .otherError => some .other

inductive Effect where
  | sendFile (dest : Int) (caption : Option String) (captionEntities : Option (List MessageEntity))
  | sendMessageHtml (dest : Int) (textHtml : String)
  | sendMessagePlain (dest : Int) (text : String)
  | sleepSecs (secs : Nat)
  | sleepPacing (secs : Rat)
  | logSuccess (src dest : Int)
  | logFloodWait (dest : Int) (wait : Nat)
  | logPermissionDenied (dest : Int)
  | logFailed (dest : Int)
deriving DecidableEq, Repr

/-- The send calls of lines 109 to 126 for one destination: the calls made, and
the error the try block raises to the handlers at lines 133 to 140, if any.
Media goes through send_file with caption = text or None and caption_entities
passed through when truthy.  A text-only message with entities first sends the
converted HTML; if that raises anything, the inner except at line 122 falls
back to one plain send, whose own error is what escapes.  Otherwise one plain
send. -/
def attemptSend (env : SendEnv) (m : Msg) (dest : Int) : List Effect × Option SendErr :=
  if m.media then
    ([.sendFile dest (if msgText m = "" then none else some (msgText m))
        (if m.entities.isEmpty then none else some m.entities)],
     resErr (env.fileRes dest))
  else if !m.entities.isEmpty then
    match env.htmlRes dest with
    | .ok => ([.sendMessageHtml dest (entities_to_html (msgText m) m.entities)], none)
    | _ => ([.sendMessageHtml dest (entities_to_html (msgText m) m.entities),
             .sendMessagePlain dest (msgText m)],
            resErr (env.plainRes dest))
  else ([.sendMessagePlain dest (msgText m)], resErr (env.plainRes dest))

/-- Delivery configuration: the resolved routing table, the pacing delay in
seconds (a Python float, modelled as a rational) and the stored keywords. -/
structure BotConfig where
  mappings : List (Int × List Int)
  delay : Rat
  keywords : List String

/-- What follows one attempt: on success the Mirrored log (line 128) and the
pacing sleep when delay > 0 (lines 130 to 131); on FloodWaitError the warning
and a sleep of wait + 5 (lines 133 to 136); on ChatWriteForbiddenError an
error log (lines 137 to 138); on any other exception a failure log (lines 139
to 140).  In every case the for loop then moves to the next destination. -/
def outcomeEffects (cfg : BotConfig) (src dest : Int) : Option SendErr → List Effect
  | none => .logSuccess src dest :: (if cfg.delay > 0 then [.sleepPacing cfg.delay] else [])
  | some (.floodWait w) => [.logFloodWait dest w, .sleepSecs (w + 5)]
  | some .permissionDenied => [.logPermissionDenied dest]
  | some .other => [.logFailed dest]

/-- One iteration of the for loop at line 107. -/
def deliverOne (cfg : BotConfig) (env : SendEnv) (src : Int) (m : Msg) (dest : Int) : List Effect :=
  (attemptSend env m dest).1 ++ outcomeEffects cfg src dest (attemptSend env m dest).2

/-- _on_message: the filter section, the destination lookup with its early
return on an empty list, then the sequential per-destination loop. -/
def on_message (cfg : BotConfig) (env : SendEnv) (srcId : Int) (m : Msg) : List Effect :=
  if !content_filter_accepts cfg.keywords m then []
  else ((cfg.mappings.lookup srcId).getD []).flatMap (deliverOne cfg env srcId m)

/-! ## Derived definitions used by the claim statements -/

/-- The four markup metacharacters plus the quote that html.escape replaces. -/
def htmlReserved : List Char := ['&', '<', '>', '"', Char.ofNat 39]

/-- The claim of section 4.1, written from its words: an integer is returned
unchanged, a purely numeric string (optional leading minus) becomes the
corresponding integer, any other string passes through as a symbolic token. -/
def normalize_id_spec : PyValue → PyValue
  | .int n => .int n
  | .str s =>
    match pyIntOfString s with
    | some k => .int k
    | none => .str s

/-- The inputs on which int() cannot be reached with a non-decimal digit:
every digit character of a string argument is a decimal digit. -/
def decimalDigitsOnly : PyValue → Bool
  | .int _ => true
  | .str s => s.data.all (fun c => !pyIsDigitChar c || pyIsDecimalDigit c)

def isPlainSendTo (d : Int) : Effect → Bool
  | .sendMessagePlain d2 _ => d2 == d
  | _ => false

def isHtmlSendTo (d : Int) : Effect → Bool
  | .sendMessageHtml d2 _ => d2 == d
  | _ => false

def isFileSendTo (d : Int) : Effect → Bool
  | .sendFile d2 _ _ => d2 == d
  | _ => false

def isHtmlSend : Effect → Bool
  | .sendMessageHtml _ _ => true
  | _ => false

def isFloodLog : Effect → Bool
  | .logFloodWait _ _ => true
  | _ => false

def isSleep : Effect → Bool
  | .sleepSecs _ => true
  | .sleepPacing _ => true
  | _ => false

/-- Concrete delivery scenario for C1: two destinations, the send to the first
raises FloodWaitError with wait 30. -/
def c1cfg : BotConfig := ⟨[(10, [1, 2])], 2, []⟩

def c1env : SendEnv :=
  ⟨fun _ => .ok, fun _ => .ok, fun d => if d == 1 then .floodWait 30 else .ok⟩

def c1msg : Msg := ⟨false, some ("hi"), false, []⟩

def c5msg : Msg := ⟨false, some ("hey"), true, [⟨"MessageEntityBold", 0, 2, "", none⟩]⟩

def c5cfg : BotConfig := ⟨[(10, [1])], 2, []⟩

def c5env : SendEnv := ⟨fun _ => .ok, fun _ => .ok, fun _ => .ok⟩

/-- The invariant of the claim over a built table: every stored entry has at
least one destination, and its destination list is exactly the in-order
selection (filterMap) of the successfully resolved destinations of some raw
source entry, so declaration order is preserved. -/
def routingInvariant (env : ResolveEnv) (raw : List (PyValue × List PyValue))
    (table : List (Int × List Int)) : Prop :=
  ∀ p ∈ table, p.2 ≠ [] ∧ ∃ q ∈ raw, resolve_dests env q.2 = .ok p.2 ∧
    p.2 = q.2.filterMap (resolveDestOk env)

/-- Every opening tag inserted for an entity of the input has its closing tag
later in the transcoder output: the output splits around that pair. -/
def transcodeMatched (text : String) (es : List MessageEntity) : Prop :=
  ∀ e ∈ es, ∀ s t, entityTags e = some (s, t) →
    ∃ p q r, (entities_to_html text es).data = p ++ s.data ++ q ++ t.data ++ r

/-! ## Helper lemmas -/

theorem escChar_of_clean (c : Char) (h : c ∉ htmlReserved) : escChar c = [c] := by
  simp only [htmlReserved, List.mem_cons, List.mem_singleton, not_or] at h
  obtain ⟨h1, h2, h3, h4, h5⟩ := h
  simp [escChar, h1, h2, h3, h4, h5]

theorem hEscape_of_clean (l : List Char) (h : ∀ c ∈ l, c ∉ htmlReserved) :
    hEscape l = l := by
  induction l with
  | nil => rfl
  | cons c rest ih =>
    have hc : escChar c = [c] := escChar_of_clean c (h c (List.mem_cons_self c rest))
    have hr : hEscape rest = rest := ih (fun x hx => h x (List.mem_cons_of_mem c hx))
    simp only [hEscape, List.flatMap_cons] at *
    rw [hc, hr]
    rfl

/-! ## C6: idempotence of the escaping function -/

/-- C6 counterexample: escaping is not idempotent on every string; on the
one-character string holding an ampersand a second pass escapes the ampersand
that the first pass introduced. -/
theorem escape_not_idempotent_counterexample :
    pyHtmlEscape (pyHtmlEscape ("&")) ≠ pyHtmlEscape ("&") := by decide

/-- C6 amended: escaping is idempotent exactly on strings free of the five
reserved metacharacters; for such a string one pass (hence any number of
passes) is the identity, so escape (escape s) = escape s. -/
theorem escape_idempotent_amended (s : String)
    (h : ∀ c ∈ s.data, c ∉ htmlReserved) :
    pyHtmlEscape (pyHtmlEscape s) = pyHtmlEscape s := by
  have h1 : hEscape s.data = s.data := hEscape_of_clean s.data h
  simp only [pyHtmlEscape, h1]

/-- C6 amended witness at a concrete reserved-free string. -/
theorem escape_idempotent_amended_witness :
    pyHtmlEscape (pyHtmlEscape ("plain text")) = pyHtmlEscape ("plain text") :=
  escape_idempotent_amended ("plain text") (by decide)

/-! ## C4: totality of normalize_id -/

theorem pyIsDecimalDigit_isDigit (c : Char) (h : pyIsDecimalDigit c = true) :
    pyIsDigitChar c = true := by
  simp [pyIsDigitChar, h]

theorem pyIsDecimalDigit_ne_minus (c : Char) (h : pyIsDecimalDigit c = true) :
    (c == '-') = false := by
  by_cases hc : c = '-'
  · subst hc
    simp [pyIsDecimalDigit] at h
  · simp [hc]

/-- C4 counterexample: normalize_id is not total.  The superscript-two
character passes Python str.isdigit, so the code calls int() on it, and int()
raises ValueError on a non-decimal digit character. -/
theorem normalize_id_raises_counterexample :
    normalize_id (.str ("²")) = .err ("ValueError") := by decide

theorem pyNumericLike_parses (s : String)
    (hn : pyNumericLike s = true)
    (hd : s.data.all (fun c => !pyIsDigitChar c || pyIsDecimalDigit c) = true) :
    ∃ k, pyIntOfString s = some k := by
  have hdec : ∀ c ∈ s.data, pyIsDigitChar c = true → pyIsDecimalDigit c = true := by
    intro c hc hdig
    have := List.all_eq_true.mp hd c hc
    rcases Bool.or_eq_true _ _ |>.mp this with hneg | hpos
    · rw [hdig] at hneg
      simp at hneg
    · exact hpos
  rcases Bool.or_eq_true _ _ |>.mp hn with h1 | h2
  · -- s.isdigit(): nonempty, all digit characters, hence all decimal
    simp only [pyStrIsDigit, Bool.and_eq_true] at h1
    obtain ⟨hne, hall⟩ := h1
    rcases hl : s.data with _ | ⟨c, rest⟩
    · rw [hl] at hne
      simp at hne
    · rw [hl] at hall
      have hcall : ∀ x ∈ c :: rest, pyIsDecimalDigit x = true := by
        intro x hx
        have hxd := List.all_eq_true.mp hall x hx
        exact hdec x (hl ▸ hx) hxd
      have hcdec : pyIsDecimalDigit c = true := hcall c (List.mem_cons_self c rest)
      refine ⟨(digitsToNat (c :: rest) : Int), ?_⟩
      simp only [pyIntOfString, hl, pyIsDecimalDigit_ne_minus c hcdec]
      rw [if_neg (by simp), if_pos (List.all_eq_true.mpr hcall)]
  · -- "-" followed by digits
    rcases hl : s.data with _ | ⟨c, rest⟩
    · rw [hl] at h2
      simp at h2
    · rw [hl] at h2
      simp only [Bool.and_eq_true] at h2
      obtain ⟨⟨hminus, hne⟩, hall⟩ := h2
      have hc : c = '-' := by exact_mod_cast beq_iff_eq.mp hminus
      have hrest : ∀ x ∈ rest, pyIsDecimalDigit x = true := by
        intro x hx
        have hxd := List.all_eq_true.mp hall x hx
        exact hdec x (hl ▸ List.mem_cons_of_mem c hx) hxd
      refine ⟨-(digitsToNat rest : Int), ?_⟩
      simp only [pyIntOfString, hl, hc]
      rw [if_pos (by simp), if_pos]
      simp only [Bool.and_eq_true]
      exact ⟨by simpa using hne, List.all_eq_true.mpr hrest⟩

theorem pyIntOfString_numericLike (s : String) (k : Int)
    (h : pyIntOfString s = some k) : pyNumericLike s = true := by
  rcases hl : s.data with _ | ⟨c, rest⟩
  · simp only [pyIntOfString, hl] at h
    exact absurd h (by simp)
  · simp only [pyIntOfString, hl] at h
    by_cases hm : (c == '-') = true
    · rw [if_pos hm] at h
      by_cases hgood : (!rest.isEmpty && rest.all pyIsDecimalDigit) = true
      · simp only [pyNumericLike, hl]
        apply Bool.or_eq_true _ _ |>.mpr
        right
        simp only [Bool.and_eq_true] at hgood ⊢
        exact ⟨⟨hm, hgood.1⟩, List.all_eq_true.mpr
          (fun x hx => pyIsDecimalDigit_isDigit x (List.all_eq_true.mp hgood.2 x hx))⟩
      · rw [if_neg hgood] at h
        simp at h
    · rw [if_neg hm] at h
      by_cases hgood : ((c :: rest).all pyIsDecimalDigit) = true
      · simp only [pyNumericLike]
        apply Bool.or_eq_true _ _ |>.mpr
        left
        simp only [pyStrIsDigit, hl, Bool.and_eq_true]
        refine ⟨by simp, List.all_eq_true.mpr ?_⟩
        intro x hx
        exact pyIsDecimalDigit_isDigit x (List.all_eq_true.mp hgood x hx)
      · rw [if_neg hgood] at h
        simp at h

/-- C4 amended: on every int, and on every string whose digit characters are
all decimal (in particular every ASCII string), normalize_id never raises and
returns exactly what the claim says: ints unchanged, purely numeric strings
(optional leading minus) converted to the integer, all other strings passed
through as symbolic tokens.  On strings with a non-decimal digit character the
int() call raises, as the counterexample shows. -/
theorem normalize_id_total_amended (v : PyValue)
    (h : decimalDigitsOnly v = true) :
    normalize_id v = .ok (normalize_id_spec v) := by
  cases v with
  | int n => rfl
  | str s =>
    simp only [normalize_id, normalize_id_spec]
    by_cases hn : pyNumericLike s = true
    · obtain ⟨k, hk⟩ := pyNumericLike_parses s hn (by simpa [decimalDigitsOnly] using h)
      rw [if_pos hn, hk]
    · rw [if_neg hn]
      have hnone : pyIntOfString s = none := by
        rcases ho : pyIntOfString s with _ | k
        · rfl
        · exact absurd (pyIntOfString_numericLike s k ho) hn
      rw [hnone]

/-- C4 amended witness at a negative numeric string. -/
theorem normalize_id_total_amended_witness :
    normalize_id (.str ("-100123")) = .ok (normalize_id_spec (.str ("-100123"))) :=
  normalize_id_total_amended (.str ("-100123")) (by decide)

/-! ## C3: the hyperlink-to-URL-text entity kind -/

/-- C3: evaluating the transcoder at a URL-kind entity spanning the whole text
shows the bug.  The code opens the tag with only the prefix of an anchor (the
href attribute is never filled in or closed, see lines 229 to 230), so the
output is not a well-formed anchor element: the claimed output would be the
anchor-open with href equal to the text, the text, then the anchor-close. -/
theorem entities_to_html_url_entity_bug :
    entities_to_html ("x.co") [⟨"MessageEntityUrl", 0, 4, "", none⟩] =
      ("<a href=\"x.co</a>") := by decide

/-! ## C8: the content filter -/

theorem content_filter_shape (kws : List String) (m : Msg) :
    content_filter_accepts kws m =
      (!m.action && !(bodyBlank m && !m.media) &&
        (kws.isEmpty || kws.any (fun k => pySubstr k.data (pyLower (msgText m)).data))) := by
  unfold content_filter_accepts
  cases hA : m.action <;> cases hB : bodyBlank m <;> cases hM : m.media <;>
    cases hE : kws.isEmpty <;>
    cases hAny : kws.any (fun k => pySubstr k.data (pyLower (msgText m)).data) <;>
    simp [hA, hB, hM, hE, hAny]

/-- C8: the filter rules, extensionally.  A message is accepted exactly when it
is no service event, its body is not blank or it has media, and the configured
keyword list is empty or some keyword occurs case-insensitively as a substring
of the body.  In particular a blank body without media is rejected whatever
the keyword configuration. -/
theorem content_filter_characterization (raw : List String) (m : Msg) :
    content_filter_accepts (mkKeywords raw) m = true ↔
      (m.action = false ∧ (bodyBlank m = false ∨ m.media = true) ∧
        (raw = [] ∨ ∃ k ∈ raw, pySubstr (pyLower k).data (pyLower (msgText m)).data = true)) := by
  rw [content_filter_shape]
  simp only [mkKeywords, Bool.and_eq_true, Bool.or_eq_true, Bool.not_eq_true',
    Bool.and_eq_false_iff, Bool.not_eq_false', List.any_map, List.any_eq_true,
    List.isEmpty_eq_true, List.map_eq_nil_iff, Function.comp]
  tauto

/-! ## Per-destination attempt lemmas -/

theorem logSuccess_not_mem_attempt (env : SendEnv) (m : Msg) (dest a b : Int) :
    Effect.logSuccess a b ∉ (attemptSend env m dest).1 := by
  unfold attemptSend
  by_cases hm : m.media = true
  · simp [hm]
  · simp only [Bool.not_eq_true] at hm
    by_cases he : m.entities.isEmpty = true
    · simp [hm, he]
    · simp only [Bool.not_eq_true] at he
      rcases hr : env.htmlRes dest with _ | _ | _ | _ <;> simp [hm, he, hr]

theorem attempt_counts (env : SendEnv) (m : Msg) (dest d : Int) :
    (attemptSend env m dest).1.countP (isPlainSendTo d) ≤ 1 ∧
    (attemptSend env m dest).1.countP (isHtmlSendTo d) ≤ 1 ∧
    (attemptSend env m dest).1.countP (isFileSendTo d) ≤ 1 := by
  unfold attemptSend
  by_cases hm : m.media = true
  · simp [hm, List.countP_cons, isPlainSendTo, isHtmlSendTo, isFileSendTo]
    split <;> simp
  · simp only [Bool.not_eq_true] at hm
    by_cases he : m.entities.isEmpty = true
    · simp [hm, he, List.countP_cons, isPlainSendTo, isHtmlSendTo, isFileSendTo]
      split <;> simp
    · simp only [Bool.not_eq_true] at he
      rcases hr : env.htmlRes dest with _ | _ | _ | _ <;>
        simp [hm, he, hr, List.countP_cons, isPlainSendTo, isHtmlSendTo, isFileSendTo] <;>
        split <;> simp

/-! ## C9: a rate limit from the markup send hits the generic fallback -/

/-- C9: for a text-only message with entities, a FloodWaitError raised by the
markup send is swallowed by the inner generic except (line 122), which at once
sends the raw plain text to the same destination; when that fallback send
succeeds the destination is logged as mirrored, the only sleep is the pacing
one, and the dedicated flood-wait handler (sleep wait + 5) never runs for the
rate limit the markup send raised. -/
theorem markup_floodwait_fallback (cfg : BotConfig) (env : SendEnv) (src d : Int)
    (m : Msg) (w : Nat)
    (hmedia : m.media = false) (hents : m.entities.isEmpty = false)
    (hflood : env.htmlRes d = .floodWait w)
    (hplain : env.plainRes d = .ok) :
    deliverOne cfg env src m d =
      [.sendMessageHtml d (entities_to_html (msgText m) m.entities),
       .sendMessagePlain d (msgText m), .logSuccess src d] ++
        (if cfg.delay > 0 then [.sleepPacing cfg.delay] else []) ∧
    (deliverOne cfg env src m d).countP isFloodLog = 0 ∧
    (deliverOne cfg env src m d).countP isSleep = (if cfg.delay > 0 then 1 else 0) := by
  have hshape : deliverOne cfg env src m d =
      [.sendMessageHtml d (entities_to_html (msgText m) m.entities),
       .sendMessagePlain d (msgText m), .logSuccess src d] ++
        (if cfg.delay > 0 then [.sleepPacing cfg.delay] else []) := by
    unfold deliverOne attemptSend outcomeEffects
    simp [hmedia, hents, hflood, hplain, resErr]
  refine ⟨hshape, ?_, ?_⟩ <;> rw [hshape] <;>
    by_cases hd : cfg.delay > 0 <;>
    simp [hd, List.countP_cons, List.countP_append, isFloodLog, isSleep]

/-- C9 witness at a concrete message, destination and environment. -/
theorem markup_floodwait_fallback_witness :
    deliverOne ⟨[(10, [1])], 2, []⟩ ⟨fun _ => .ok, fun _ => .floodWait 7, fun _ => .ok⟩ 10
        ⟨false, some ("hi"), false, [⟨"MessageEntityBold", 0, 2, "", none⟩]⟩ 1 =
      [.sendMessageHtml 1 (entities_to_html (msgText ⟨false, some ("hi"), false,
          [⟨"MessageEntityBold", 0, 2, "", none⟩]⟩)
          [⟨"MessageEntityBold", 0, 2, "", none⟩]),
       .sendMessagePlain 1 (msgText ⟨false, some ("hi"), false,
          [⟨"MessageEntityBold", 0, 2, "", none⟩]⟩), .logSuccess 10 1] ++
        (if (⟨[(10, [1])], 2, []⟩ : BotConfig).delay > 0
          then [.sleepPacing (⟨[(10, [1])], 2, []⟩ : BotConfig).delay] else []) ∧
    (deliverOne ⟨[(10, [1])], 2, []⟩ ⟨fun _ => .ok, fun _ => .floodWait 7, fun _ => .ok⟩ 10
        ⟨false, some ("hi"), false, [⟨"MessageEntityBold", 0, 2, "", none⟩]⟩ 1).countP
        isFloodLog = 0 ∧
    (deliverOne ⟨[(10, [1])], 2, []⟩ ⟨fun _ => .ok, fun _ => .floodWait 7, fun _ => .ok⟩ 10
        ⟨false, some ("hi"), false, [⟨"MessageEntityBold", 0, 2, "", none⟩]⟩ 1).countP
        isSleep = (if (⟨[(10, [1])], 2, []⟩ : BotConfig).delay > 0 then 1 else 0) :=
  markup_floodwait_fallback ⟨[(10, [1])], 2, []⟩
    ⟨fun _ => .ok, fun _ => .floodWait 7, fun _ => .ok⟩ 10 1
    ⟨false, some ("hi"), false, [⟨"MessageEntityBold", 0, 2, "", none⟩]⟩ 7
    rfl rfl rfl rfl

/-! ## C1: the flood-wait handling of the delivery loop -/

/-- C1 counterexample: with wait 30 on destination 1 the engine sleeps 35
seconds and does not mark destination 1 a success, but the for loop then moves
on, so destination 2 after the rate-limited one is still attempted in the same
pass, contradicting the stop-processing part of the claim. -/
theorem floodwait_stop_counterexample :
    on_message c1cfg c1env 10 c1msg =
      [.sendMessagePlain 1 ("hi"), .logFloodWait 1 30, .sleepSecs 35,
       .sendMessagePlain 2 ("hi"), .logSuccess 10 2, .sleepPacing 2] ∧
    Effect.sendMessagePlain 2 ("hi") ∈ on_message c1cfg c1env 10 c1msg := by decide

/-- C1 amended: when the attempt on destination d raises FloodWaitError with
wait w, the engine sleeps w + 5 right after the flood warning, d gets no
success mark and no send call is repeated for it (each send kind at most once,
so no auto-retry), but the remaining destinations are still processed in the
same pass, each by the same per-destination loop body. -/
theorem floodwait_pauses_then_continues (cfg : BotConfig) (env : SendEnv) (src : Int)
    (m : Msg) (l1 l2 : List Int) (d : Int) (w : Nat)
    (hacc : content_filter_accepts cfg.keywords m = true)
    (hdests : (cfg.mappings.lookup src).getD [] = l1 ++ d :: l2)
    (herr : (attemptSend env m d).2 = some (.floodWait w)) :
    on_message cfg env src m =
      l1.flatMap (deliverOne cfg env src m) ++
      ((attemptSend env m d).1 ++ [.logFloodWait d w, .sleepSecs (w + 5)]) ++
      l2.flatMap (deliverOne cfg env src m) ∧
    Effect.logSuccess src d ∉ (attemptSend env m d).1 ∧
    (attemptSend env m d).1.countP (isPlainSendTo d) ≤ 1 ∧
    (attemptSend env m d).1.countP (isHtmlSendTo d) ≤ 1 ∧
    (attemptSend env m d).1.countP (isFileSendTo d) ≤ 1 := by
  refine ⟨?_, logSuccess_not_mem_attempt env m d src d, (attempt_counts env m d d).1,
    (attempt_counts env m d d).2.1, (attempt_counts env m d d).2.2⟩
  unfold on_message
  rw [hacc, hdests]
  simp only [Bool.not_true, Bool.false_eq_true, if_false, List.flatMap_append,
    List.flatMap_cons, List.append_assoc, List.append_cancel_left_eq]
  have hd : deliverOne cfg env src m d =
      (attemptSend env m d).1 ++ [.logFloodWait d w, .sleepSecs (w + 5)] := by
    unfold deliverOne
    rw [herr]
    rfl
  rw [hd]
  simp

/-- C1 amended witness at the concrete scenario of the counterexample. -/
theorem floodwait_pauses_then_continues_witness :
    on_message c1cfg c1env 10 c1msg =
      [].flatMap (deliverOne c1cfg c1env 10 c1msg) ++
      ((attemptSend c1env c1msg 1).1 ++ [.logFloodWait 1 30, .sleepSecs (30 + 5)]) ++
      [2].flatMap (deliverOne c1cfg c1env 10 c1msg) ∧
    Effect.logSuccess 10 1 ∉ (attemptSend c1env c1msg 1).1 ∧
    (attemptSend c1env c1msg 1).1.countP (isPlainSendTo 1) ≤ 1 ∧
    (attemptSend c1env c1msg 1).1.countP (isHtmlSendTo 1) ≤ 1 ∧
    (attemptSend c1env c1msg 1).1.countP (isFileSendTo 1) ≤ 1 :=
  floodwait_pauses_then_continues c1cfg c1env 10 c1msg [] [2] 1 30
    (by decide) (by decide) (by decide)

/-! ## C5: media captions -/

/-- C5 counterexample: a media message with a bold entity is sent through
send_file with caption_entities = the original entity list (line 114), not
None, so the caption does carry the style-annotation metadata the claim says
it never carries. -/
theorem media_caption_metadata_counterexample :
    on_message c5cfg c5env 10 c5msg =
      [.sendFile 1 (some ("hey")) (some [⟨"MessageEntityBold", 0, 2, "", none⟩]),
       .logSuccess 10 1, .sleepPacing 2] ∧
    Effect.sendFile 1 (some ("hey")) (some [⟨"MessageEntityBold", 0, 2, "", none⟩]) ∈
      on_message c5cfg c5env 10 c5msg := by decide

/-- C5 amended: a media message goes through send_file with the caption being
the plain text (or None when empty) and with the original entity list passed
through unchanged as caption-entities metadata when nonempty; no rich-text
transcoding happens for media (no HTML send is ever emitted), but the style
metadata is forwarded rather than dropped. -/
theorem media_caption_amended (cfg : BotConfig) (env : SendEnv) (src d : Int)
    (m : Msg) (hm : m.media = true) :
    deliverOne cfg env src m d =
      .sendFile d (if msgText m = "" then none else some (msgText m))
          (if m.entities.isEmpty then none else some m.entities) ::
        outcomeEffects cfg src d (resErr (env.fileRes d)) ∧
    (deliverOne cfg env src m d).countP isHtmlSend = 0 := by
  have hshape : deliverOne cfg env src m d =
      .sendFile d (if msgText m = "" then none else some (msgText m))
          (if m.entities.isEmpty then none else some m.entities) ::
        outcomeEffects cfg src d (resErr (env.fileRes d)) := by
    unfold deliverOne attemptSend
    rw [hm]
    rfl
  refine ⟨hshape, ?_⟩
  rw [hshape]
  rcases hr : env.fileRes d with _ | _ | _ | _ <;>
    simp [resErr, outcomeEffects, List.countP_cons, isHtmlSend]

/-- C5 amended witness at the concrete media message. -/
theorem media_caption_amended_witness :
    deliverOne c5cfg c5env 10 c5msg 1 =
      .sendFile 1 (if msgText c5msg = "" then none else some (msgText c5msg))
          (if c5msg.entities.isEmpty then none else some c5msg.entities) ::
        outcomeEffects c5cfg 10 1 (resErr (c5env.fileRes 1)) ∧
    (deliverOne c5cfg c5env 10 c5msg 1).countP isHtmlSend = 0 :=
  media_caption_amended c5cfg c5env 10 1 c5msg (by decide)

/-! ## C7: the RoutingTable invariant -/

theorem resolve_dests_ok_filterMap (env : ResolveEnv) (l : List PyValue) (out : List Int)
    (h : resolve_dests env l = .ok out) :
    out = l.filterMap (resolveDestOk env) := by
  induction l generalizing out with
  | nil =>
    simp only [resolve_dests] at h
    cases h
    rfl
  | cons d rest ih =>
    simp only [resolve_dests] at h
    rcases h1 : resolveDest env d with r | msg
    · rw [h1] at h
      rcases h2 : resolve_dests env rest with tail | msg2
      · rw [h2] at h
        cases h
        have htail := ih tail h2
        have hok : resolveDestOk env d = r := by
          unfold resolveDestOk
          rw [h1]
        rcases r with _ | k <;>
          simp [List.filterMap_cons, hok, htail]
      · rw [h2] at h
        exact absurd h (by simp)
    · rw [h1] at h
      exact absurd h (by simp)

theorem mem_dinsert (m : List (Int × List Int)) (k : Int) (v : List Int)
    (p : Int × List Int) (h : p ∈ dinsert m k v) : p ∈ m ∨ p = (k, v) := by
  unfold dinsert at h
  by_cases hk : m.any (fun q => q.1 == k) = true
  · rw [if_pos hk] at h
    rcases List.mem_map.1 h with ⟨q, hq, hfq⟩
    by_cases hqk : (q.1 == k) = true
    · rw [if_pos hqk] at hfq
      right
      exact hfq.symm
    · rw [if_neg hqk] at hfq
      left
      exact hfq ▸ hq
  · rw [if_neg hk] at h
    rcases List.mem_append.1 h with hm | hs
    · left
      exact hm
    · right
      simpa using hs

theorem resolveMappingsAux_inv (env : ResolveEnv) :
    ∀ (rest : List (PyValue × List PyValue)) (acc table : List (Int × List Int)),
      resolveMappingsAux env rest acc = .ok table →
      ∀ p ∈ table, p ∈ acc ∨
        (p.2 ≠ [] ∧ ∃ q ∈ rest, resolve_dests env q.2 = .ok p.2 ∧
          p.2 = q.2.filterMap (resolveDestOk env)) := by
  intro rest
  induction rest with
  | nil =>
    intro acc table h p hp
    simp only [resolveMappingsAux] at h
    cases h
    exact Or.inl hp
  | cons hd tl ih =>
    intro acc table h p hp
    obtain ⟨raw_src, raw_dests⟩ := hd
    simp only [resolveMappingsAux] at h
    rcases hs : resolve_src_id env raw_src with _ | src_id
    · simp only [hs] at h
      rcases ih acc table h p hp with hl | ⟨hne, q, hq, hr⟩
      · exact Or.inl hl
      · exact Or.inr ⟨hne, q, List.mem_cons_of_mem _ hq, hr⟩
    · simp only [hs] at h
      rcases hd2 : resolve_dests env raw_dests with dest_ids | msg
      · simp only [hd2] at h
        by_cases hemp : dest_ids.isEmpty = true
        · rw [if_pos hemp] at h
          rcases ih acc table h p hp with hl | ⟨hne, q, hq, hr⟩
          · exact Or.inl hl
          · exact Or.inr ⟨hne, q, List.mem_cons_of_mem _ hq, hr⟩
        · rw [if_neg hemp] at h
          rcases hk : pyToInt src_id with k | msg
          · simp only [hk] at h
            rcases ih _ table h p hp with hl | ⟨hne, q, hq, hr⟩
            · rcases mem_dinsert acc k dest_ids p hl with hacc | hpkv
              · exact Or.inl hacc
              · refine Or.inr ⟨?_, (raw_src, raw_dests), List.mem_cons_self _ _, ?_, ?_⟩
                · rw [hpkv]
                  simpa using hemp
                · rw [hpkv]
                  exact hd2
                · rw [hpkv]
                  exact resolve_dests_ok_filterMap env raw_dests dest_ids hd2
            · exact Or.inr ⟨hne, q, List.mem_cons_of_mem _ hq, hr⟩
          · simp only [hk] at h
            exact absurd h (by simp)
      · simp only [hd2] at h
        exact absurd h (by simp)

/-- C7: every routing table _resolve_mappings returns satisfies the invariant:
no entry with zero destinations (such sources are dropped), and each stored
destination list keeps the declaration order of the destinations that
resolved. -/
theorem resolve_mappings_invariant (env : ResolveEnv)
    (raw : List (PyValue × List PyValue)) (table : List (Int × List Int))
    (h : resolve_mappings env raw = .ok table) :
    routingInvariant env raw table := by
  intro p hp
  rcases resolveMappingsAux_inv env raw [] table h p hp with hacc | hgood
  · exact absurd hacc (List.not_mem_nil p)
  · exact hgood

/-- C7 witness: the spec scenario.  The symbolic source resolves to 555, the
numeric-literal destination survives, the failing symbolic destination is
skipped, and the built table is exactly that one entry. -/
theorem resolve_mappings_invariant_witness :
    routingInvariant ⟨fun s => if s == "@channelA" then some 555 else none⟩
      [(.str ("@channelA"), [.str ("-100123"), .str ("@channelB")])]
      [(555, [-100123])] :=
  resolve_mappings_invariant ⟨fun s => if s == "@channelA" then some 555 else none⟩
    [(.str ("@channelA"), [.str ("-100123"), .str ("@channelB")])]
    [(555, [-100123])] (by decide)

/-! ## Walk lemmas for the transcoder claims -/

theorem hEscape_sublist_walk (ins : List (Nat × String)) (l : List Char) :
    ∀ i : Nat, (hEscape l).Sublist (walkHtml ins l i) := by
  induction l with
  | nil =>
    intro i
    exact List.nil_sublist _
  | cons c rest ih =>
    intro i
    have h1 : (escChar c ++ hEscape rest).Sublist (escChar c ++ walkHtml ins rest (i + 1)) :=
      (ih (i + 1)).append_left (escChar c)
    have h2 : (escChar c ++ walkHtml ins rest (i + 1)).Sublist
        (tagsFlat ins i ++ (escChar c ++ walkHtml ins rest (i + 1))) :=
      List.sublist_append_right _ _
    have h3 : hEscape (c :: rest) = escChar c ++ hEscape rest := by
      simp [hEscape]
    rw [h3]
    exact (h1.trans h2).trans (by simp [walkHtml])

theorem walk_split (ins : List (Nat × String)) :
    ∀ (l : List Char) (i p : Nat), i ≤ p → p ≤ i + l.length →
      ∃ u v, walkHtml ins l i = u ++ (tagsFlat ins p ++ v) := by
  intro l
  induction l with
  | nil =>
    intro i p hip hpi
    simp only [List.length_nil, Nat.add_zero] at hpi
    have : p = i := Nat.le_antisymm hpi hip
    subst this
    exact ⟨[], [], by simp [walkHtml]⟩
  | cons c rest ih =>
    intro i p hip hpi
    rcases Nat.eq_or_lt_of_le hip with heq | hlt
    · subst heq
      exact ⟨[], escChar c ++ walkHtml ins rest (i + 1), by simp [walkHtml]⟩
    · have hb : p ≤ (i + 1) + rest.length := by
        simp only [List.length_cons] at hpi
        omega
      obtain ⟨u, v, huv⟩ := ih (i + 1) p hlt hb
      refine ⟨tagsFlat ins i ++ escChar c ++ u, v, ?_⟩
      simp only [walkHtml, huv, List.append_assoc]

theorem walk_split2 (ins : List (Nat × String)) :
    ∀ (l : List Char) (i p q : Nat), i ≤ p → p < q → q ≤ i + l.length →
      ∃ u v w, walkHtml ins l i =
        u ++ (tagsFlat ins p ++ (v ++ (tagsFlat ins q ++ w))) := by
  intro l
  induction l with
  | nil =>
    intro i p q hip hpq hqi
    exfalso
    simp only [List.length_nil, Nat.add_zero] at hqi
    omega
  | cons c rest ih =>
    intro i p q hip hpq hqi
    rcases Nat.eq_or_lt_of_le hip with heq | hlt
    · subst heq
      have hb : q ≤ (i + 1) + rest.length := by
        simp only [List.length_cons] at hqi
        omega
      obtain ⟨u, v, huv⟩ := walk_split ins rest (i + 1) q (by omega) hb
      refine ⟨[], escChar c ++ u, v, ?_⟩
      simp only [walkHtml, huv, List.append_assoc, List.nil_append]
    · have hb : q ≤ (i + 1) + rest.length := by
        simp only [List.length_cons] at hqi
        omega
      obtain ⟨u, v, w, huvw⟩ := ih (i + 1) p q hlt hpq hb
      refine ⟨tagsFlat ins i ++ escChar c ++ u, v, w, ?_⟩
      simp only [walkHtml, huvw, List.append_assoc]

theorem insertsOf_split (es : List MessageEntity) (e : MessageEntity) (h : e ∈ es) :
    ∃ A B, insertsOf es = A ++ (entInserts e ++ B) := by
  obtain ⟨l1, l2, rfl⟩ := List.append_of_mem h
  exact ⟨insertsOf l1, insertsOf l2, by simp [insertsOf]⟩

theorem mem_tagsAt (ins : List (Nat × String)) (p : Nat) (s : String)
    (h : (p, s) ∈ ins) : s ∈ tagsAt ins p :=
  List.mem_map.2 ⟨(p, s), List.mem_filter.2 ⟨h, by simp⟩, rfl⟩

theorem tagsFlat_split (ins : List (Nat × String)) (p : Nat) (s : String)
    (h : s ∈ tagsAt ins p) : ∃ x y, tagsFlat ins p = x ++ (s.data ++ y) := by
  obtain ⟨l1, l2, heq⟩ := List.append_of_mem h
  refine ⟨l1.flatMap String.data, l2.flatMap String.data, ?_⟩
  simp [tagsFlat, heq]

theorem tagsFlat_pair (A B : List (Nat × String)) (p : Nat) (s t : String) :
    ∃ x y, tagsFlat (A ++ ([(p, s), (p, t)] ++ B)) p = x ++ (s.data ++ (t.data ++ y)) := by
  refine ⟨((A.filter (fun q => q.1 == p)).map Prod.snd).flatMap String.data,
    ((B.filter (fun q => q.1 == p)).map Prod.snd).flatMap String.data, ?_⟩
  simp [tagsFlat, tagsAt, List.filter_append, List.filter_cons]

/-! ## C2: well-formed inputs give matched tags and escaped text -/

/-- C2: for every well-formed input (each offset is a Nat and offset + length
is at most the text length) the transcoder output contains, for every
supported entity, its opening tag with the matching closing tag later, and the
escaped text characters appear in the output in order (the escaped input is a
sublist of the output), so non-annotated characters survive unchanged modulo
escaping. -/
theorem entities_to_html_wellformed (text : String) (es : List MessageEntity)
    (hwf : ∀ e ∈ es, e.offset + e.length ≤ text.data.length) :
    transcodeMatched text es ∧
      (hEscape text.data).Sublist (entities_to_html text es).data := by
  constructor
  · intro e he s t htags
    have hne : es.isEmpty = false := by
      cases es
      · cases he
      · rfl
    have hout : (entities_to_html text es).data = walkHtml (insertsOf es) text.data 0 := by
      simp [entities_to_html, entitiesToHtmlList, hne]
    obtain ⟨A, B, hins⟩ := insertsOf_split es e he
    have hwfe := hwf e he
    by_cases hln : e.length = 0
    · have hent : entInserts e = [(e.offset, s), (e.offset, t)] := by
        simp [entInserts, htags, hln]
      rw [hent] at hins
      have hxy := tagsFlat_pair A B e.offset s t
      rw [← hins] at hxy
      obtain ⟨x, y, hxy⟩ := hxy
      obtain ⟨u, v, huv⟩ := walk_split (insertsOf es) text.data 0 e.offset
        (Nat.zero_le _) (by omega)
      refine ⟨u ++ x, [], y ++ v, ?_⟩
      rw [hout, huv, hxy]
      simp [List.append_assoc]
    · have hs : (e.offset, s) ∈ insertsOf es := by
        rw [hins]
        simp [entInserts, htags]
      have ht : (e.offset + e.length, t) ∈ insertsOf es := by
        rw [hins]
        simp [entInserts, htags]
      obtain ⟨u, v, w2, huvw⟩ := walk_split2 (insertsOf es) text.data 0 e.offset
        (e.offset + e.length) (Nat.zero_le _) (by omega) (by omega)
      obtain ⟨x1, y1, h1⟩ := tagsFlat_split _ _ _ (mem_tagsAt _ _ _ hs)
      obtain ⟨x2, y2, h2⟩ := tagsFlat_split _ _ _ (mem_tagsAt _ _ _ ht)
      refine ⟨u ++ x1, y1 ++ v ++ x2, y2 ++ w2, ?_⟩
      rw [hout, huvw, h1, h2]
      simp [List.append_assoc]
  · by_cases hne : es.isEmpty
    · simp [entities_to_html, entitiesToHtmlList, hne]
    · have hout : (entities_to_html text es).data = walkHtml (insertsOf es) text.data 0 := by
        simp [entities_to_html, entitiesToHtmlList, hne]
      rw [hout]
      exact hEscape_sublist_walk _ _ _

/-- C2 witness: the spec scenario with a bold span over the first five
characters. -/
theorem entities_to_html_wellformed_witness :
    transcodeMatched ("Hello world") [⟨"MessageEntityBold", 0, 5, "", none⟩] ∧
    (hEscape ("Hello world").data).Sublist
      (entities_to_html ("Hello world") [⟨"MessageEntityBold", 0, 5, "", none⟩]).data :=
  entities_to_html_wellformed ("Hello world")
    [⟨"MessageEntityBold", 0, 5, "", none⟩] (by decide)

/-! ## C10: out-of-range closing tags are silently dropped -/

theorem hEscape_no_lt (l : List Char) : ('<' : Char) ∉ hEscape l := by
  intro h
  rcases List.mem_flatMap.1 h with ⟨a, _, hc⟩
  by_cases h1 : a = '&'
  · subst h1
    exact absurd hc (by decide)
  by_cases h2 : a = '<'
  · subst h2
    exact absurd hc (by decide)
  by_cases h3 : a = '>'
  · subst h3
    exact absurd hc (by decide)
  by_cases h4 : a = '"'
  · subst h4
    exact absurd hc (by decide)
  by_cases h5 : a = Char.ofNat 39
  · subst h5
    exact absurd hc (by decide)
  have ha : escChar a = [a] := by
    simp [escChar, h1, h2, h3, h4, h5]
  rw [ha, List.mem_singleton] at hc
  exact h2 hc.symm

theorem walk_no_tags (a b : Nat) (s t : String) :
    ∀ (l : List Char) (i : Nat), a < i → i + l.length < b →
      walkHtml [(a, s), (b, t)] l i = hEscape l := by
  intro l
  induction l with
  | nil =>
    intro i hai hib
    have h1 : (a == i) = false := by
      simp only [beq_eq_false_iff_ne]
      omega
    have h2 : (b == i) = false := by
      simp only [beq_eq_false_iff_ne]
      simp only [List.length_nil, Nat.add_zero] at hib
      omega
    simp [walkHtml, tagsFlat, tagsAt, List.filter_cons, h1, h2, hEscape]
  | cons c rest ih =>
    intro i hai hib
    have h1 : (a == i) = false := by
      simp only [beq_eq_false_iff_ne]
      omega
    have h2 : (b == i) = false := by
      simp only [beq_eq_false_iff_ne]
      simp only [List.length_cons] at hib
      omega
    have hrec := ih (i + 1) (by omega) (by simp only [List.length_cons] at hib; omega)
    simp [walkHtml, tagsFlat, tagsAt, List.filter_cons, h1, h2, hEscape, hrec]

theorem walk_open_only (a b : Nat) (s t : String) :
    ∀ (l : List Char) (i : Nat), i ≤ a → a ≤ i + l.length → i + l.length < b →
      walkHtml [(a, s), (b, t)] l i =
        hEscape (l.take (a - i)) ++ s.data ++ hEscape (l.drop (a - i)) := by
  intro l
  induction l with
  | nil =>
    intro i hia hai hib
    simp only [List.length_nil, Nat.add_zero] at hai hib
    have heq : a = i := Nat.le_antisymm hai hia
    subst heq
    have h2 : (b == a) = false := by
      simp only [beq_eq_false_iff_ne]
      omega
    simp [walkHtml, tagsFlat, tagsAt, List.filter_cons, h2, hEscape]
  | cons c rest ih =>
    intro i hia hai hib
    simp only [List.length_cons] at hai hib
    rcases Nat.eq_or_lt_of_le hia with heq | hlt
    · subst heq
      have h2 : (b == i) = false := by
        simp only [beq_eq_false_iff_ne]
        omega
      have hrec := walk_no_tags i b s t rest (i + 1) (by omega) (by omega)
      simp [walkHtml, tagsFlat, tagsAt, List.filter_cons, h2, hEscape, hrec]
    · have h1 : (a == i) = false := by
        simp only [beq_eq_false_iff_ne]
        omega
      have h2 : (b == i) = false := by
        simp only [beq_eq_false_iff_ne]
        omega
      have hrec := ih (i + 1) (by omega) (by omega) (by omega)
      have hsub : a - i = (a - (i + 1)) + 1 := by omega
      rw [walkHtml]
      rw [hrec, hsub, List.take_succ_cons, List.drop_succ_cons]
      have h3 : hEscape (c :: rest.take (a - (i + 1))) =
          escChar c ++ hEscape (rest.take (a - (i + 1))) := by
        simp [hEscape]
      rw [h3]
      simp [tagsFlat, tagsAt, List.filter_cons, h1, h2, List.append_assoc]

/-- C10: on an annotation whose span sticks out past the end of the text
(offset within the text but offset + length beyond it) the transcoder still
returns (the walk only visits positions up to the text length), the opening
tag is emitted at the offset, and the closing tag, scheduled past the end, is
never emitted: the output is the escaped prefix, then the opening tag, then
the escaped tail, and the escaped parts hold no tag-opening character, so the
opening tag stays unmatched. -/
theorem entities_to_html_out_of_range (text : String) (e : MessageEntity) (s t : String)
    (h1 : entityTags e = some (s, t)) (h2 : e.offset ≤ text.data.length)
    (h3 : text.data.length < e.offset + e.length) :
    (entities_to_html text [e]).data =
      hEscape (text.data.take e.offset) ++ s.data ++ hEscape (text.data.drop e.offset) ∧
    ('<' : Char) ∉ hEscape (text.data.take e.offset) ∧
    ('<' : Char) ∉ hEscape (text.data.drop e.offset) := by
  refine ⟨?_, hEscape_no_lt _, hEscape_no_lt _⟩
  have hout : (entities_to_html text [e]).data = walkHtml (insertsOf [e]) text.data 0 := rfl
  have hins : insertsOf [e] = [(e.offset, s), (e.offset + e.length, t)] := by
    simp [insertsOf, entInserts, h1]
  rw [hout, hins]
  have hw := walk_open_only e.offset (e.offset + e.length) s t text.data 0
    (Nat.zero_le _) (by omega) (by omega)
  simpa using hw

/-- C10 witness: a bold span reaching past the end of a two-character text. -/
theorem entities_to_html_out_of_range_witness :
    (entities_to_html ("ab") [⟨"MessageEntityBold", 1, 5, "", none⟩]).data =
      hEscape (("ab").data.take 1) ++ ("<b>").data ++ hEscape (("ab").data.drop 1) ∧
    ('<' : Char) ∉ hEscape (("ab").data.take 1) ∧
    ('<' : Char) ∉ hEscape (("ab").data.drop 1) :=
  entities_to_html_out_of_range ("ab") ⟨"MessageEntityBold", 1, 5, "", none⟩
    "<b>" "</b>" (by decide) (by decide) (by decide)

end MirrorBotSpec
